import Mathlib

/-!
Shallow embedding of the Finance repository's core trading logic.

Sources embedded here:
* `state_management.py` — `TraderState._buy_stock`, `_sell_stock`, `reset_portfolio`
* `backtest.py` — the per-bar loop body of `run_single_simulation` and its
  anti-repeat gate
* `callbacks.py` — the automated-trading branch of `handle_auto_trading`
  and the validation in `handle_manual_trading`
* `backtest_engine.py` — `_compute_signal_row` and the no-data path of
  `run_backtest`
* `optimizer.py` — `evaluate` and the per-generation state update of
  `run_optimizer` (DEAP hall-of-fame abstracted as a running lexicographic
  maximum over the candidates each generation produces)

Python floats are modelled as exact rationals (ℚ); pandas NaN cells are
modelled as `Option ℚ` with `none`, and NaN comparisons follow the
pandas/numpy semantics that every comparison against NaN is `False`.
-/

namespace Finance

/-- One entry of the `portfolio["stocks"]` dict in `state_management.py`:
`qty`, `avg_price`, `buy_date`. -/
structure Position where
  qty : Int
  avg_price : ℚ
  buy_date : String
  deriving Repr, DecidableEq

/-- One entry of `portfolio["closed_trades"]`, as appended by `_sell_stock`. -/
structure ClosedTrade where
  fecha_venta : String
  ticker : String
  cantidad : Int
  precio_compra_promedio : ℚ
  precio_venta : ℚ
  ganancia_perdida_realizada : ℚ
  deriving Repr, DecidableEq

/-- The persisted portfolio document of `state_management.py`. The `stocks`
dict is modelled as an association list keyed by ticker. -/
structure Portfolio where
  cash : ℚ
  stocks : List (String × Position)
  initial_cash : ℚ
  closed_trades : List ClosedTrade
  deriving Repr, DecidableEq

/-- Python dict lookup (`d[k]` / `k in d`). -/
def dictGet {α : Type} : List (String × α) → String → Option α
  | [], _ => none
  | (k, v) :: rest, key => if key = k then some v else dictGet rest key

/-- Python dict assignment `d[k] = v`. -/
def dictSet {α : Type} : List (String × α) → String → α → List (String × α)
  | [], key, v => [(key, v)]
  | (k, w) :: rest, key, v =>
    if key = k then (key, v) :: rest else (k, w) :: dictSet rest key v

/-- Python `del d[k]`. -/
def dictRemove {α : Type} : List (String × α) → String → List (String × α)
  | [], _ => []
  | (k, w) :: rest, key => if key = k then rest else (k, w) :: dictRemove rest key

/-- Python `round(x, 2)` on an exact decimal value: round half to even at
two decimal places. -/
def round2 (x : ℚ) : ℚ :=
  let y := x * 100
  let f : Int := Int.floor y
  let frac := y - (f : ℚ)
  let r : Int :=
    if frac < 1/2 then f
    else if 1/2 < frac then f + 1
    else if f % 2 = 0 then f else f + 1
  (r : ℚ) / 100

/-- The default portfolio (`TraderState.initial_portfolio_state`). -/
def initPortfolio : Portfolio :=
  { cash := 100000, stocks := [], initial_cash := 100000, closed_trades := [] }

/-- Embeds `TraderState._buy_stock` (state_management.py lines 49-71).
Returns the updated portfolio together with the notification message and
colour. There is no validation of `quantity`: the only check is the funds
check `cash >= quantity * price`. The `now` argument stands for
`datetime.now()`. In ℚ the division for the merged average price is total;
Python instead raises `ZeroDivisionError` when the ticker is already held
and `old_qty + quantity = 0` — that error path is modelled explicitly by
`buyStockE` below, and this totalized version is relied on only where the
merged quantity is nonzero (`buyStockE_agrees`). -/
def buyStock (pf : Portfolio) (ticker : String) (quantity : Int) (price : ℚ)
    (now : String) : Portfolio × String × String :=
  let costo_total : ℚ := (quantity : ℚ) * price
  if costo_total ≤ pf.cash then
    let stocks' :=
      match dictGet pf.stocks ticker with
      | none => dictSet pf.stocks ticker ⟨quantity, price, now⟩
      | some pos =>
        let new_total_cost := (pos.qty : ℚ) * pos.avg_price + (quantity : ℚ) * price
        let new_total_qty := pos.qty + quantity
        dictSet pf.stocks ticker
          ⟨new_total_qty, new_total_cost / (new_total_qty : ℚ), pos.buy_date⟩
    ({ pf with stocks := stocks', cash := pf.cash - costo_total },
     "✅ Compradas acciones.", "success")
  else
    (pf, "❌ Fondos insuficientes para realizar la compra.", "danger")

/-- Embeds `TraderState._buy_stock` including its uncontrolled error path:
when the funds check passes, the ticker is already held, and
`old_qty + quantity = 0`, the source evaluates
`new_total_cost / new_total_qty` with a zero denominator and raises
`ZeroDivisionError` (after having already mutated the position's `qty`
field), so the call neither succeeds nor returns the rejection tuple. On
every other input it behaves exactly like `buyStock`. -/
def buyStockE (pf : Portfolio) (ticker : String) (quantity : Int) (price : ℚ)
    (now : String) : Except String (Portfolio × String × String) :=
  let costo_total : ℚ := (quantity : ℚ) * price
  if costo_total ≤ pf.cash then
    match dictGet pf.stocks ticker with
    | none =>
      .ok ({ pf with
             stocks := dictSet pf.stocks ticker ⟨quantity, price, now⟩,
             cash := pf.cash - costo_total },
           "✅ Compradas acciones.", "success")
    | some pos =>
      if pos.qty + quantity = 0 then .error "ZeroDivisionError"
      else
        let new_total_cost := (pos.qty : ℚ) * pos.avg_price + (quantity : ℚ) * price
        let new_total_qty := pos.qty + quantity
        .ok ({ pf with
               stocks := dictSet pf.stocks ticker
                 ⟨new_total_qty, new_total_cost / (new_total_qty : ℚ), pos.buy_date⟩,
               cash := pf.cash - costo_total },
             "✅ Compradas acciones.", "success")
  else .ok (pf, "❌ Fondos insuficientes para realizar la compra.", "danger")

/-- Embeds `TraderState._sell_stock` (state_management.py lines 73-101).
Returns the updated portfolio, message, colour, and the realized PnL. -/
def sellStock (pf : Portfolio) (ticker : String) (quantity : Int) (price : ℚ)
    (now : String) : Portfolio × String × String × ℚ :=
  match dictGet pf.stocks ticker with
  | some pos =>
    if quantity ≤ pos.qty then
      let realized_pnl := (price - pos.avg_price) * (quantity : ℚ)
      let trade : ClosedTrade :=
        ⟨now, ticker, quantity, round2 pos.avg_price, round2 price, round2 realized_pnl⟩
      let newQty := pos.qty - quantity
      let stocks' :=
        if newQty = 0 then dictRemove pf.stocks ticker
        else dictSet pf.stocks ticker ⟨newQty, pos.avg_price, pos.buy_date⟩
      ({ cash := pf.cash + (quantity : ℚ) * price, stocks := stocks',
         initial_cash := pf.initial_cash,
         closed_trades := pf.closed_trades ++ [trade] },
       "✅ Vendidas acciones.", "success", realized_pnl)
    else (pf, "❌ No tienes suficientes acciones para vender.", "danger", 0)
  | none => (pf, "❌ No tienes suficientes acciones para vender.", "danger", 0)

/-- Embeds `TraderState.reset_portfolio` (state_management.py lines 103-111):
cash is restored to the constant `initial_portfolio_state["initial_cash"]`
(100000), stocks and closed trades are cleared. -/
def resetPortfolio (pf : Portfolio) : Portfolio :=
  { pf with cash := 100000, stocks := [], closed_trades := [] }

/-- A ledger operation, for stating invariants over arbitrary sequences of
buy/sell/reset calls. -/
inductive Op where
  | buy : String → Int → ℚ → Op
  | sell : String → Int → ℚ → Op
  | reset : Op
  deriving Repr, DecidableEq

/-- Applies one ledger operation (discarding messages). -/
def applyOp (pf : Portfolio) : Op → Portfolio
  | .buy t q p => (buyStock pf t q p "").1
  | .sell t q p => (sellStock pf t q p "").1
  | .reset => resetPortfolio pf

/-- Applies a sequence of ledger operations. -/
def applyOps (pf : Portfolio) (ops : List Op) : Portfolio := ops.foldl applyOp pf

/-- An operation with positive quantity and price, as quantified over by the
spec's invariant claims. -/
def opValid : Op → Bool
  | .buy _ q p => decide (0 < q) && decide (0 < p)
  | .sell _ q p => decide (0 < q) && decide (0 < p)
  | .reset => true

/-! ## Trading signals (config.py) -/

def BUY_SIGNAL : String := "📈 Comprar"

def SELL_SIGNAL : String := "📉 Vender"

def OBSERVE_SIGNAL : String := "👁 Observar"

def HOLD_SIGNAL : String := "🤝 Mantener"

/-- The sentinel string returned by `get_recommendation` in backtest.py when
the data slice is too short. -/
def NO_DATA_SIGNAL : String := "No hay datos suficientes"

/-! ## Signal Scoring Engine (`_compute_signal_row`, backtest_engine.py) -/

/-- One row of the indicator DataFrame handed to `_compute_signal_row`.
Indicator cells may be NaN (insufficient rolling history), modelled as
`none`; `Close` and `Volume` are plain values. The `prev` columns are the
`shift(1)` columns added by `run_backtest` (NaN on the first row). -/
structure SigRow where
  close : ℚ
  volume : ℚ
  lower : Option ℚ
  upper : Option ℚ
  rsi : Option ℚ
  macd : Option ℚ
  signal : Option ℚ
  prev_macd : Option ℚ
  prev_signal : Option ℚ
  prev_close : Option ℚ
  sma20 : Option ℚ
  adx : Option ℚ
  stoch_k : Option ℚ
  stoch_d : Option ℚ
  volume_sma : Option ℚ
  deriving Repr, DecidableEq

/-- Pandas/numpy comparison semantics: any comparison with NaN is `False`. -/
def nanLt : Option ℚ → Option ℚ → Bool
  | some a, some b => a < b
  | _, _ => false

/-- Pandas/numpy comparison semantics: any comparison with NaN is `False`. -/
def nanLe : Option ℚ → Option ℚ → Bool
  | some a, some b => a ≤ b
  | _, _ => false

/-- The numeric configuration read by `_compute_signal_row` via
`config.get(key, default)`. -/
structure SigConfig where
  coef_bollinger : ℚ
  coef_rsi : ℚ
  coef_macd : ℚ
  coef_stoch : ℚ
  coef_adx_sma : ℚ
  coef_volume : ℚ
  rsi_oversold : ℚ
  rsi_overbought : ℚ
  stoch_oversold : ℚ
  stoch_overbought : ℚ
  adx_trend_threshold : ℚ
  volume_sma_multiplier : ℚ
  buy_sell_threshold : ℚ
  deriving Repr, DecidableEq

/-- The fallback defaults hard-coded in `_compute_signal_row`. -/
def defaultSigConfig : SigConfig :=
  { coef_bollinger := 8/10, coef_rsi := 24/10, coef_macd := 155/100,
    coef_stoch := 2, coef_adx_sma := 75/100, coef_volume := 8/10,
    rsi_oversold := 30, rsi_overbought := 70,
    stoch_oversold := 20, stoch_overbought := 80,
    adx_trend_threshold := 25, volume_sma_multiplier := 15/10,
    buy_sell_threshold := 14/10 }

/-- Rule 1 of `_compute_signal_row` (Bollinger): two independent `if`s on
`Close < Lower` and `Close > Upper`, applied to the running
`(buy_score, sell_score)` accumulator. -/
def applyBollinger (r : SigRow) (c : SigConfig) (s : ℚ × ℚ) : ℚ × ℚ :=
  let s1 := if nanLt (some r.close) r.lower then (s.1 + c.coef_bollinger, s.2) else s
  if nanLt r.upper (some r.close) then (s1.1, s1.2 + c.coef_bollinger) else s1

/-- Rule 2 of `_compute_signal_row` (RSI): `if rsi < oversold ... elif
rsi > overbought`. -/
def applyRsi (r : SigRow) (c : SigConfig) (s : ℚ × ℚ) : ℚ × ℚ :=
  if nanLt r.rsi (some c.rsi_oversold) then (s.1 + c.coef_rsi, s.2)
  else if nanLt (some c.rsi_overbought) r.rsi then (s.1, s.2 + c.coef_rsi)
  else s

/-- Rule 3 of `_compute_signal_row` (MACD crossover). The `prev_MACD` /
`prev_Signal` columns always exist (added by `shift(1)`), so the
`in row` guard of the source is always true; the cells may be NaN. -/
def applyMacd (r : SigRow) (c : SigConfig) (s : ℚ × ℚ) : ℚ × ℚ :=
  if nanLt r.signal r.macd && nanLe r.prev_macd r.prev_signal then
    (s.1 + c.coef_macd, s.2)
  else if nanLt r.macd r.signal && nanLe r.prev_signal r.prev_macd then
    (s.1, s.2 + c.coef_macd)
  else s

/-- Rule 4 of `_compute_signal_row` (Stochastic). -/
def applyStoch (r : SigRow) (c : SigConfig) (s : ℚ × ℚ) : ℚ × ℚ :=
  if nanLt r.stoch_k (some c.stoch_oversold) && nanLt r.stoch_d (some c.stoch_oversold) then
    (s.1 + c.coef_stoch, s.2)
  else if nanLt (some c.stoch_overbought) r.stoch_k && nanLt (some c.stoch_overbought) r.stoch_d then
    (s.1, s.2 + c.coef_stoch)
  else s

/-- Rule 5 of `_compute_signal_row` (ADX + SMA20 trend): when
`adx > threshold`, an `if Close > SMA20 ... else ...` adds to the buy or
the sell score. A NaN SMA20 makes the comparison false, so the `else`
(sell) branch fires. -/
def applyAdx (r : SigRow) (c : SigConfig) (s : ℚ × ℚ) : ℚ × ℚ :=
  if nanLt (some c.adx_trend_threshold) r.adx then
    (if nanLt r.sma20 (some r.close) then (s.1 + c.coef_adx_sma, s.2)
     else (s.1, s.2 + c.coef_adx_sma))
  else s

/-- Rule 6 of `_compute_signal_row` (volume spike):
`Volume > multiplier * Volume_SMA` (false when `Volume_SMA` is NaN), then
compares `Close` against `prev_Close` (`row.get` returns the NaN cell). -/
def applyVolume (r : SigRow) (c : SigConfig) (s : ℚ × ℚ) : ℚ × ℚ :=
  let spike :=
    match r.volume_sma with
    | some v => decide (c.volume_sma_multiplier * v < r.volume)
    | none => false
  if spike then
    (if nanLt r.prev_close (some r.close) then (s.1 + c.coef_volume, s.2)
     else if nanLt (some r.close) r.prev_close then (s.1, s.2 + c.coef_volume)
     else s)
  else s

/-- The `(buy_score, sell_score)` accumulation of `_compute_signal_row`
(backtest_engine.py lines 86-147), rules applied in source order. -/
def computeScores (r : SigRow) (c : SigConfig) : ℚ × ℚ :=
  applyVolume r c (applyAdx r c (applyStoch r c (applyMacd r c
    (applyRsi r c (applyBollinger r c (0, 0))))))

/-- The threshold decision of `_compute_signal_row` (lines 149-157). The
signal strings are the repository-wide values from config.py; the
`config.get` fallbacks for the Observe/Hold strings differ only in their
emoji, which no claim depends on. -/
def computeSignalRow (r : SigRow) (c : SigConfig) : String :=
  let s := computeScores r c
  if s.2 + c.buy_sell_threshold < s.1 then BUY_SIGNAL
  else if s.1 + c.buy_sell_threshold < s.2 then SELL_SIGNAL
  else if 0 < s.1 ∨ 0 < s.2 then OBSERVE_SIGNAL
  else HOLD_SIGNAL

/-! ## Automated trading: simulation loop (backtest.py) -/

/-- State threaded through `run_single_simulation`'s bar loop: the
disposable portfolio and `last_auto_trade_rec_for_ticker` (initially
`None`). -/
structure SimState where
  portfolio : Portfolio
  last_rec : Option String
  deriving Repr, DecidableEq

/-- One evaluation of a bar: `(recommendation, close price, timestamp)`. -/
abbrev SimBar := String × ℚ × String

/-- Embeds the loop body of `run_single_simulation` (backtest.py lines
187-248). The inline buy/sell blocks there are verbatim copies of
`TraderState._buy_stock` / `_sell_stock`, so the embedding reuses
`buyStock` / `sellStock`; the trade executes only behind the anti-repeat
gate, `last_auto_trade_rec_for_ticker` is updated only on a successful
trade, and Observe/Hold (the final `else`) record the observed signal.
Returns the new state and whether a trade executed. -/
def simStep (tk : String) (qty : Int) (st : SimState) (b : SimBar) :
    SimState × Bool :=
  if b.1 = NO_DATA_SIGNAL then (st, false)
  else if b.1 = BUY_SIGNAL then
    if st.last_rec ≠ some BUY_SIGNAL then
      let res := buyStock st.portfolio tk qty b.2.1 b.2.2
      if res.2.2 = "success" then
        ({ portfolio := res.1, last_rec := some BUY_SIGNAL }, true)
      else ({ st with portfolio := res.1 }, false)
    else (st, false)
  else if b.1 = SELL_SIGNAL then
    if st.last_rec ≠ some SELL_SIGNAL then
      let res := sellStock st.portfolio tk qty b.2.1 b.2.2
      if res.2.2.1 = "success" then
        ({ portfolio := res.1, last_rec := some SELL_SIGNAL }, true)
      else ({ st with portfolio := res.1 }, false)
    else (st, false)
  else ({ st with last_rec := some b.1 }, false)

/-- Runs the simulation loop over a bar list, counting executed trades. -/
def simRun (tk : String) (qty : Int) : SimState → List SimBar → SimState × Nat
  | st, [] => (st, 0)
  | st, b :: rest =>
    let r := simStep tk qty st b
    let rr := simRun tk qty r.1 rest
    (rr.1, (if r.2 then 1 else 0) + rr.2)

/-! ## Automated trading: live callback (callbacks.py) -/

/-- State read and written by `handle_auto_trading`: the live portfolio and
the per-ticker dict `latest_data["last_auto_trade_rec"]`. -/
structure AutoState where
  portfolio : Portfolio
  last_auto_trade_rec : List (String × String)
  deriving Repr, DecidableEq

/-- Embeds the trading branch of `handle_auto_trading` (callbacks.py lines
217-247), reached when auto-trading is enabled and data for the ticker is
present: the anti-repeat gate per ticker, the dead-code non-positive
quantity guard, trade execution through the ledger, the record update on
success only, and the Observe/Hold recording branch. Returns the new state
and whether a trade executed. -/
def autoStep (st : AutoState) (tk sig : String) (price : ℚ) (qty : Int)
    (now : String) : AutoState × Bool :=
  if sig = BUY_SIGNAL then
    if dictGet st.last_auto_trade_rec tk ≠ some BUY_SIGNAL then
      if qty ≤ 0 then (st, false)
      else
        let res := buyStock st.portfolio tk qty price now
        if res.2.2 = "success" then
          ({ portfolio := res.1,
             last_auto_trade_rec := dictSet st.last_auto_trade_rec tk BUY_SIGNAL },
           true)
        else ({ st with portfolio := res.1 }, false)
    else (st, false)
  else if sig = SELL_SIGNAL then
    if dictGet st.last_auto_trade_rec tk ≠ some SELL_SIGNAL then
      if qty ≤ 0 then (st, false)
      else
        let res := sellStock st.portfolio tk qty price now
        if res.2.2.1 = "success" then
          ({ portfolio := res.1,
             last_auto_trade_rec := dictSet st.last_auto_trade_rec tk SELL_SIGNAL },
           true)
        else ({ st with portfolio := res.1 }, false)
    else (st, false)
  else
    ({ st with last_auto_trade_rec := dictSet st.last_auto_trade_rec tk sig },
     false)

/-- Runs a sequence of automated evaluations `(signal, price)` for one
ticker, counting executed trades. -/
def autoRun (tk : String) (qty : Int) (now : String) :
    AutoState → List (String × ℚ) → AutoState × Nat
  | st, [] => (st, 0)
  | st, e :: rest =>
    let r := autoStep st tk e.1 e.2 qty now
    let rr := autoRun tk qty now r.1 rest
    (rr.1, (if r.2 then 1 else 0) + rr.2)

/-- Embeds the input validation of `handle_manual_trading` (callbacks.py
lines 158-163) for the buy button, given that ticker data is present: a
missing or non-positive quantity is rejected with a danger alert before the
ledger is ever called. -/
def handleManualBuy (pf : Portfolio) (tk : String) (cantidad : Option Int)
    (price : ℚ) (now : String) : Portfolio × String :=
  match cantidad with
  | none => (pf, "danger")
  | some q =>
    if q ≤ 0 then (pf, "danger")
    else
      let res := buyStock pf tk q price now
      (res.1, res.2.2)

/-! ## Backtest no-data path (backtest_engine.py) and optimizer fitness
(optimizer.py) -/

/-- The result dict assembled by `run_backtest` on success. -/
structure Report where
  profit_pct : ℚ
  trades : Int
  money_spent : ℚ
  money_retrieved : ℚ
  shares_left : ℚ
  deriving Repr, DecidableEq

/-- Embeds the data-availability control flow of `run_backtest`
(backtest_engine.py lines 28-47): `None` when `get_or_update_data` found no
data (`df is None or df.empty`) or when the date-filtered frame is empty,
otherwise the report assembled from the third-party `Backtest` run, which
is abstracted as the parameter `runStats`. -/
def runBacktestModel (runStats : List SigRow → Report)
    (df : Option (List SigRow)) : Option Report :=
  match df with
  | none => none
  | some rows => if rows.isEmpty then none else some (runStats rows)

/-- The accumulation loop of `optimizer.evaluate` (optimizer.py lines
64-78). Python calls `result.get("profit_pct", 0)` on each per-ticker
result; when `run_backtest` returned `None` this raises `AttributeError`,
modelled as `Except.error`. Accumulates `(total_profit, total_trades,
total_loss)`. -/
def evaluateGo : List (Option Report) → ℚ → ℚ → ℚ → Except String (ℚ × ℚ × ℚ)
  | [], tp, tt, tl => .ok (tp, tt, tl)
  | none :: _, _, _, _ =>
    .error "AttributeError: NoneType object has no attribute get"
  | some r :: rest, tp, tt, tl =>
    let profit := r.profit_pct
    let loss := min 0 profit
    evaluateGo rest (tp + profit) (tt + (r.trades : ℚ)) (tl + |loss|)

/-- `N_TICKERS` (optimizer.py line 11). -/
def N_TICKERS : ℚ := 3

/-- Embeds `optimizer.evaluate` (optimizer.py lines 58-82) applied to the
per-ticker backtest results of the sampled tickers: either the fitness
triple `(score, avg_trades, avg_profit)` or the uncaught `AttributeError`
raised on a no-data ticker. -/
def evaluateModel (results : List (Option Report)) : Except String (ℚ × ℚ × ℚ) :=
  match evaluateGo results 0 0 0 with
  | .error e => .error e
  | .ok (tp, tt, tl) =>
    let score := tp - 0 * tl + 0 * tt
    .ok (score, tt / N_TICKERS, tp / N_TICKERS)

/-- Report with all fields zero, used as a concrete stand-in for the
abstracted third-party backtest statistics. -/
def emptyReport : Report :=
  { profit_pct := 0, trades := 0, money_spent := 0, money_retrieved := 0,
    shares_left := 0 }

/-! ## Genetic optimizer state persistence (optimizer.py `run_optimizer`) -/

/-- The best individual a generation produces, as read from the DEAP hall
of fame: `(score, trades, profit)` fitness values plus the coefficient
vector. -/
structure Cand where
  score : ℚ
  trades : ℚ
  profit_pct : ℚ
  config : List ℚ
  deriving Repr, DecidableEq

/-- One record of `state["history"]`. -/
structure HistEntry where
  gen : Nat
  score : ℚ
  config : List ℚ
  trades : ℚ
  profit_pct : ℚ
  deriving Repr, DecidableEq

/-- The `state["best"]` record. -/
structure BestEntry where
  score : ℚ
  config : List ℚ
  trades : ℚ
  profit_pct : ℚ
  deriving Repr, DecidableEq

/-- The persisted `optimizer_state.json` document. -/
structure OptState where
  best : Option BestEntry
  history : List HistEntry
  deriving Repr, DecidableEq

/-- `load_state`'s default when the state file is missing (optimizer.py
lines 31-35). -/
def initOptState : OptState := { best := none, history := [] }

/-- DEAP fitness comparison for weights `(1.0, 0.1, 0.1)`: lexicographic on
the weighted values; all weights are positive, so this is lexicographic on
`(score, trades, profit_pct)`. -/
def fitLt (a b : Cand) : Bool :=
  decide (a.score < b.score ∨ (a.score = b.score ∧
    (a.trades < b.trades ∨ (a.trades = b.trades ∧ a.profit_pct < b.profit_pct))))

/-- The size-1 `HallOfFame` after a generation offers candidate `c`: a
strictly better candidate replaces the stored one. -/
def hofBest (hof : Option Cand) (c : Cand) : Cand :=
  match hof with
  | none => c
  | some b => if fitLt b c then c else b

/-- The per-generation state update of `run_optimizer` (optimizer.py lines
110-128): append a history record for the hall-of-fame best `b`, and
overwrite `state["best"]` only when `best_score` strictly improves. -/
def optGenStep (st : OptState) (b : Cand) (gen : Nat) : OptState :=
  let entry : HistEntry :=
    { gen := gen, score := b.score, config := b.config, trades := b.trades,
      profit_pct := b.profit_pct }
  let newBest : Option BestEntry :=
    match st.best with
    | none => some ⟨b.score, b.config, b.trades, b.profit_pct⟩
    | some cur =>
      if cur.score < b.score then some ⟨b.score, b.config, b.trades, b.profit_pct⟩
      else some cur
  { best := newBest, history := st.history ++ [entry] }

/-- The generational loop of `run_optimizer`: `cands` lists, per
generation, the best individual that generation's evaluations produced;
the hall of fame is the running `fitLt`-maximum over them, starting empty
for each call of `run_optimizer`. -/
def optLoop : OptState → Option Cand → Nat → List Cand → OptState
  | st, _, _, [] => st
  | st, hof, gen, c :: rest =>
    let b := hofBest hof c
    optLoop (optGenStep st b (gen + 1)) (some b) (gen + 1) rest

/-- One full `run_optimizer` call: loads the carried state, runs the
generational loop with a fresh hall of fame, saving after each generation
(the final state is the last save). -/
def runOptimizerModel (st : OptState) (cands : List Cand) : OptState :=
  optLoop st none 0 cands

/-- Several `run_optimizer` calls separated by restarts; `load_state` at
the start of each run hands the previous run's persisted state over. -/
def runAll (st : OptState) (runs : List (List Cand)) : OptState :=
  runs.foldl runOptimizerModel st

/-- Projection used to state history-monotonicity claims. -/
def histScores (st : OptState) : List ℚ := st.history.map HistEntry.score

/-! ## Buy sequences (for the weighted-average-price claims) -/

/-- Total quantity of a list of `(qty, price)` buys. -/
def sumQty (l : List (Int × ℚ)) : Int := (l.map Prod.fst).sum

/-- Total cost of a list of `(qty, price)` buys. -/
def sumCost (l : List (Int × ℚ)) : ℚ := (l.map (fun x => (x.1 : ℚ) * x.2)).sum

/-- A sequence of ledger buys of one ticker, no intervening sells. -/
def runBuys (tk : String) : Portfolio → List (Int × ℚ) → Portfolio
  | pf, [] => pf
  | pf, x :: rest => runBuys tk (buyStock pf tk x.1 x.2 "now").1 rest

/-! ## Concrete inputs used by counterexamples -/

/-- A bar whose ADX is defined and above the default threshold while SMA20
and every other indicator cell is NaN. -/
def c4Row : SigRow :=
  { close := 100, volume := 0, lower := none, upper := none, rsi := none,
    macd := none, signal := none, prev_macd := none, prev_signal := none,
    prev_close := none, sma20 := none, adx := some 30, stoch_k := none,
    stoch_d := none, volume_sma := none }

/-- Generation best of score 10 (first optimizer run). -/
def candA : Cand := { score := 10, trades := 0, profit_pct := 0, config := [] }

/-- Generation best of score 5 (second optimizer run, after a restart). -/
def candB : Cand := { score := 5, trades := 0, profit_pct := 0, config := [] }

/-! # Theorems -/

/-! ## Association-list helper lemmas -/

theorem dictGet_dictSet_self {α : Type} (d : List (String × α)) (k : String) (v : α) :
    dictGet (dictSet d k v) k = some v := by
  induction d with
  | nil => simp [dictGet, dictSet]
  | cons hd tl ih =>
    by_cases h : k = hd.1
    · simp [dictGet, dictSet, h]
    · simp [dictGet, dictSet, h, ih]

theorem dictRemove_dictSet {α : Type} (d : List (String × α)) (k : String) (v : α)
    (h : dictGet d k = none) : dictRemove (dictSet d k v) k = d := by
  induction d with
  | nil => simp [dictGet, dictSet, dictRemove]
  | cons hd tl ih =>
    by_cases hk : k = hd.1
    · simp [dictGet, hk] at h
    · simp [dictGet, hk] at h
      simp [dictSet, dictRemove, hk, ih h]

theorem mem_dictSet {α : Type} (d : List (String × α)) (k : String) (v : α)
    (x : String × α) (hx : x ∈ dictSet d k v) : x = (k, v) ∨ x ∈ d := by
  induction d with
  | nil => simpa [dictSet] using hx
  | cons hd tl ih =>
    by_cases hk : k = hd.1
    · simp only [dictSet, if_pos hk, List.mem_cons] at hx
      rcases hx with h | h
      · exact Or.inl h
      · exact Or.inr (List.mem_cons_of_mem _ h)
    · simp only [dictSet, if_neg hk, List.mem_cons] at hx
      rcases hx with h | h
      · exact Or.inr (h ▸ List.mem_cons_self _ _)
      · rcases ih h with h' | h'
        · exact Or.inl h'
        · exact Or.inr (List.mem_cons_of_mem _ h')

theorem dictGet_mem {α : Type} (d : List (String × α)) (k : String) (v : α)
    (h : dictGet d k = some v) : (k, v) ∈ d := by
  induction d with
  | nil => simp [dictGet] at h
  | cons hd tl ih =>
    obtain ⟨a, b⟩ := hd
    by_cases hk : k = a
    · subst hk
      simp [dictGet] at h
      subst h
      exact List.mem_cons_self _ _
    · simp only [dictGet, if_neg hk] at h
      exact List.mem_cons_of_mem _ (ih h)

theorem mem_dictRemove {α : Type} (d : List (String × α)) (k : String)
    (x : String × α) (hx : x ∈ dictRemove d k) : x ∈ d := by
  induction d with
  | nil => simp [dictRemove] at hx
  | cons hd tl ih =>
    by_cases hk : k = hd.1
    · simp only [dictRemove, if_pos hk] at hx
      exact List.mem_cons_of_mem _ hx
    · simp only [dictRemove, if_neg hk, List.mem_cons] at hx
      rcases hx with h | h
      · exact h ▸ List.mem_cons_self _ _
      · exact List.mem_cons_of_mem _ (ih h)

/-! ## NaN comparison helper lemmas -/

theorem nanLt_none_left (b : Option ℚ) : nanLt none b = false := rfl

theorem nanLt_none_right (a : Option ℚ) : nanLt a none = false := by
  cases a <;> rfl

theorem nanLe_none_left (b : Option ℚ) : nanLe none b = false := rfl

theorem nanLe_none_right (a : Option ℚ) : nanLe a none = false := by
  cases a <;> rfl

/-! ## Claim C3 -/

/-- C3 (code bug): on a no-data ticker `run_backtest` returns `None`, not a
sentinel report with `trade_count == 0` and `profit_pct == 0`, and
`optimizer.evaluate` then calls `.get` on that `None`, raising an uncaught
`AttributeError` that aborts the whole fitness evaluation instead of
skipping the ticker; a batch of tickers that all have data completes
normally. -/
theorem nodata_crashes_optimizer_evaluate :
    runBacktestModel (fun _ => emptyReport) none = none
    ∧ runBacktestModel (fun _ => emptyReport) (some []) = none
    ∧ evaluateModel [none, some emptyReport]
        = .error "AttributeError: NoneType object has no attribute get"
    ∧ evaluateModel [some emptyReport, none]
        = .error "AttributeError: NoneType object has no attribute get"
    ∧ evaluateModel [some emptyReport, some emptyReport, some emptyReport]
        = .ok (0, 0, 0) := by
  refine ⟨rfl, rfl, rfl, rfl, ?_⟩
  norm_num [evaluateModel, evaluateGo, emptyReport, N_TICKERS]

/-! ## Claim C4 -/

/-- C4 counterexample: a bar whose SMA20 is undefined while ADX is defined
and above the threshold adds `COEF_ADX_SMA` to the sell score — the
comparison `Close > NaN` is false, so the `else` (sell) branch of the
ADX/SMA20 rule fires. With every other indicator undefined the scores are
`(0, 3/4)`, not `(0, 0)` as the claim requires. -/
theorem adx_sma_undefined_scores_sell :
    c4Row.sma20 = none
    ∧ computeScores c4Row defaultSigConfig = (0, 3/4)
    ∧ computeScores c4Row defaultSigConfig ≠ (0, 0)
    ∧ computeSignalRow c4Row defaultSigConfig = OBSERVE_SIGNAL := by
  have hsc : computeScores c4Row defaultSigConfig = (0, 3/4) := by
    norm_num [computeScores, c4Row, applyBollinger, applyRsi, applyMacd,
      applyStoch, applyAdx, applyVolume, nanLt, nanLe, defaultSigConfig]
  refine ⟨rfl, hsc, ?_, ?_⟩
  · rw [hsc]
    norm_num [Prod.ext_iff]
  · simp only [computeSignalRow, hsc]
    norm_num [defaultSigConfig]

/-- C4 amended: a scoring rule whose required indicator field is undefined
contributes to neither score — for Bollinger, RSI, MACD, Stochastic, the
ADX gate itself, and the volume rule — with one exception: when ADX is
defined and above the threshold but SMA20 is undefined, the rule adds
`COEF_ADX_SMA` to the sell score. -/
theorem scoring_skip_rules_amended :
    (∀ r c s, r.lower = none → r.upper = none → applyBollinger r c s = s)
    ∧ (∀ r c s, r.rsi = none → applyRsi r c s = s)
    ∧ (∀ r c s, r.macd = none ∨ r.signal = none ∨ r.prev_macd = none ∨
        r.prev_signal = none → applyMacd r c s = s)
    ∧ (∀ r c s, r.stoch_k = none ∨ r.stoch_d = none → applyStoch r c s = s)
    ∧ (∀ r c s, r.adx = none → applyAdx r c s = s)
    ∧ (∀ r c s, r.volume_sma = none → applyVolume r c s = s)
    ∧ (∀ r c s a, r.adx = some a → c.adx_trend_threshold < a → r.sma20 = none →
        applyAdx r c s = (s.1, s.2 + c.coef_adx_sma)) := by
  refine ⟨?_, ?_, ?_, ?_, ?_, ?_, ?_⟩
  · intro r c s h1 h2
    simp [applyBollinger, h1, h2, nanLt_none_left, nanLt_none_right]
  · intro r c s h
    simp [applyRsi, h, nanLt_none_left, nanLt_none_right]
  · intro r c s h
    rcases h with h | h | h | h <;>
      simp [applyMacd, h, nanLt_none_left, nanLt_none_right,
        nanLe_none_left, nanLe_none_right]
  · intro r c s h
    rcases h with h | h <;>
      simp [applyStoch, h, nanLt_none_left, nanLt_none_right]
  · intro r c s h
    simp [applyAdx, h, nanLt_none_right]
  · intro r c s h
    simp [applyVolume, h]
  · intro r c s a ha hth hs
    simp [applyAdx, ha, hs, nanLt, hth, nanLt_none_left]

/-- Witness for the amended C4 theorem at a concrete row and accumulator. -/
theorem scoring_skip_rules_amended_witness :
    applyRsi c4Row defaultSigConfig (1, 2) = (1, 2)
    ∧ applyAdx c4Row defaultSigConfig (1, 2)
        = ((1, 2).1, ((1 : ℚ), (2 : ℚ)).2 + defaultSigConfig.coef_adx_sma) :=
  ⟨scoring_skip_rules_amended.2.1 c4Row defaultSigConfig (1, 2) rfl,
   scoring_skip_rules_amended.2.2.2.2.2.2 c4Row defaultSigConfig (1, 2) 30 rfl
     (by norm_num [defaultSigConfig]) rfl⟩

/-! ## Claim C8 -/

/-- C8 counterexample: the ledger's `_buy_stock` performs no quantity
validation — a buy with quantity 0 is reported as a success and creates a
zero-quantity position, and a buy with quantity −5 is reported as a success
and credits cash. -/
theorem ledger_buy_accepts_nonpositive_qty :
    (buyStock initPortfolio "AAPL" 0 100 "d").2.2 = "success"
    ∧ (buyStock initPortfolio "AAPL" 0 100 "d").1 ≠ initPortfolio
    ∧ dictGet (buyStock initPortfolio "AAPL" 0 100 "d").1.stocks "AAPL"
        = some ⟨0, 100, "d"⟩
    ∧ (buyStock initPortfolio "AAPL" (-5) 100 "d").2.2 = "success"
    ∧ (buyStock initPortfolio "AAPL" (-5) 100 "d").1.cash = 100500 := by
  refine ⟨?_, ?_, ?_, ?_, ?_⟩ <;>
    norm_num [buyStock, initPortfolio, dictGet, dictSet]

theorem buyStockE_agrees (pf : Portfolio) (tk : String) (q : Int) (p : ℚ)
    (now : String)
    (h : dictGet pf.stocks tk = none
      ∨ ∃ pos, dictGet pf.stocks tk = some pos ∧ pos.qty + q ≠ 0) :
    buyStockE pf tk q p now = .ok (buyStock pf tk q p now) := by
  by_cases hc : (q : ℚ) * p ≤ pf.cash
  · rcases h with h | ⟨pos, h, hnz⟩
    · simp [buyStockE, buyStock, hc, h]
    · simp [buyStockE, buyStock, hc, h, hnz]
  · simp [buyStockE, buyStock, hc]

/-- C8 amended: `_buy_stock` itself does not validate the quantity. A buy
whose total cost is within cash is accepted as a success whenever the
ticker is not yet held or the merged quantity is nonzero — so a
non-positive quantity passes the funds check (qty 0 creates a
zero-quantity position, negative qty credits cash) — while a buy of a held
ticker with `qty = −held_qty` raises an uncontrolled `ZeroDivisionError`
instead of a typed rejection; positivity is enforced only by the callers,
e.g. `handle_manual_trading` rejects a missing or non-positive quantity
before the ledger is called, leaving the portfolio unchanged. -/
theorem buy_validation_in_caller_amended :
    (∀ (pf : Portfolio) (tk : String) (q : Int) (p : ℚ) (now : String),
       dictGet pf.stocks tk = none → (q : ℚ) * p ≤ pf.cash →
       buyStockE pf tk q p now = .ok (buyStock pf tk q p now)
       ∧ (buyStock pf tk q p now).2.2 = "success"
       ∧ (buyStock pf tk q p now).1.cash = pf.cash - (q : ℚ) * p)
    ∧ (∀ (pf : Portfolio) (tk : String) (q : Int) (p : ℚ) (now : String)
         (pos : Position),
       dictGet pf.stocks tk = some pos → pos.qty + q ≠ 0 →
       (q : ℚ) * p ≤ pf.cash →
       buyStockE pf tk q p now = .ok (buyStock pf tk q p now)
       ∧ (buyStock pf tk q p now).2.2 = "success"
       ∧ (buyStock pf tk q p now).1.cash = pf.cash - (q : ℚ) * p)
    ∧ (∀ (pf : Portfolio) (tk : String) (q : Int) (p : ℚ) (now : String)
         (pos : Position),
       dictGet pf.stocks tk = some pos → pos.qty + q = 0 →
       (q : ℚ) * p ≤ pf.cash →
       buyStockE pf tk q p now = .error "ZeroDivisionError")
    ∧ (∀ (pf : Portfolio) (tk : String) (q : Int) (p : ℚ) (now : String),
       q ≤ 0 → handleManualBuy pf tk (some q) p now = (pf, "danger"))
    ∧ (∀ (pf : Portfolio) (tk : String) (p : ℚ) (now : String),
       handleManualBuy pf tk none p now = (pf, "danger")) := by
  refine ⟨?_, ?_, ?_, ?_, ?_⟩
  · intro pf tk q p now hget h
    exact ⟨buyStockE_agrees pf tk q p now (Or.inl hget),
      by simp [buyStock, h], by simp [buyStock, h]⟩
  · intro pf tk q p now pos hget hnz h
    exact ⟨buyStockE_agrees pf tk q p now (Or.inr ⟨pos, hget, hnz⟩),
      by simp [buyStock, h], by simp [buyStock, h]⟩
  · intro pf tk q p now pos hget hz h
    simp [buyStockE, h, hget, hz]
  · intro pf tk q p now h
    simp [handleManualBuy, h]
  · intro pf tk p now
    rfl

/-- Witness for the amended C8 theorem: a fresh-ticker buy of quantity −3
is accepted as a success, a held-ticker buy of the exact negated quantity
raises `ZeroDivisionError`, and the manual-trading caller rejects the
non-positive quantity before the ledger runs. -/
theorem buy_validation_in_caller_amended_witness :
    (buyStock initPortfolio "X" (-3) 7 "d").2.2 = "success"
    ∧ buyStockE
        { cash := 100, stocks := [("X", ⟨5, 10, "d0"⟩)], initial_cash := 100,
          closed_trades := [] } "X" (-5) 7 "d" = .error "ZeroDivisionError"
    ∧ handleManualBuy initPortfolio "X" (some (-3)) 7 "d" = (initPortfolio, "danger") :=
  ⟨(buy_validation_in_caller_amended.1 initPortfolio "X" (-3) 7 "d" rfl
      (by norm_num [initPortfolio])).2.1,
   buy_validation_in_caller_amended.2.2.1
     { cash := 100, stocks := [("X", ⟨5, 10, "d0"⟩)], initial_cash := 100,
       closed_trades := [] } "X" (-5) 7 "d" ⟨5, 10, "d0"⟩
     (by simp [dictGet]) (by norm_num) (by norm_num),
   buy_validation_in_caller_amended.2.2.2.1 initPortfolio "X" (-3) 7 "d"
     (by norm_num)⟩

/-! ## Claim C9 counterexample -/

/-- C9 counterexample: the DEAP hall of fame is created afresh for every
`run_optimizer` call, so after a restart a run whose best score (5) is
below the previously persisted best (10) still appends 5 to the history —
the stored history of best scores is not monotonically non-decreasing
across restarts, even though the persisted best itself keeps the value 10. -/
theorem history_scores_decrease_across_restarts :
    histScores (runAll initOptState [[candA], [candB]]) = [10, 5]
    ∧ ¬ List.Chain' (· ≤ ·) (histScores (runAll initOptState [[candA], [candB]]))
    ∧ (runAll initOptState [[candA], [candB]]).best
        = some { score := 10, config := [], trades := 0, profit_pct := 0 } := by
  have h : runAll initOptState [[candA], [candB]]
      = { best := some ⟨10, [], 0, 0⟩,
          history := [⟨1, 10, [], 0, 0⟩, ⟨1, 5, [], 0, 0⟩] } := by
    norm_num [runAll, runOptimizerModel, optLoop, optGenStep, hofBest, fitLt,
      initOptState, candA, candB]
  rw [h]
  refine ⟨rfl, ?_, rfl⟩
  norm_num [histScores, List.chain'_cons, HistEntry.score]

/-! ## Claim C2 -/

theorem applyOp_cash_nonneg (pf : Portfolio) (op : Op) (h : 0 ≤ pf.cash)
    (hv : opValid op = true) : 0 ≤ (applyOp pf op).cash := by
  cases op with
  | buy t q p =>
    simp only [applyOp, buyStock]
    split
    · rename_i hc
      simpa using sub_nonneg.mpr hc
    · exact h
  | sell t q p =>
    simp only [opValid, Bool.and_eq_true, decide_eq_true_eq] at hv
    simp only [applyOp, sellStock]
    cases hg : dictGet pf.stocks t with
    | none => simpa [hg] using h
    | some pos =>
      simp only [hg]
      split
      · have hq : (0 : ℚ) < (q : ℚ) := by exact_mod_cast hv.1
        simpa using add_nonneg h (le_of_lt (mul_pos hq hv.2))
      · exact h
  | reset =>
    simp only [applyOp, resetPortfolio]
    norm_num

theorem applyOps_cash_nonneg : ∀ (ops : List Op) (pf : Portfolio),
    0 ≤ pf.cash → (∀ op ∈ ops, opValid op = true) →
    0 ≤ (applyOps pf ops).cash
  | [], pf, h, _ => by simpa [applyOps] using h
  | op :: rest, pf, h, hv => by
    have h1 : applyOps pf (op :: rest) = applyOps (applyOp pf op) rest := by
      simp [applyOps]
    rw [h1]
    exact applyOps_cash_nonneg rest (applyOp pf op)
      (applyOp_cash_nonneg pf op h (hv op (List.mem_cons_self _ _)))
      (fun o ho => hv o (List.mem_cons_of_mem _ ho))

/-- C2: a buy whose total cost exceeds the available cash is rejected with
the insufficient-funds message, leaving cash, positions, and closed trades
exactly as they were; consequently cash never becomes negative under any
sequence of buy, sell, and reset operations with positive quantities and
prices. -/
theorem buy_rejection_and_cash_nonneg :
    (∀ (pf : Portfolio) (tk : String) (q : Int) (p : ℚ) (now : String),
       pf.cash < (q : ℚ) * p →
       buyStock pf tk q p now
         = (pf, "❌ Fondos insuficientes para realizar la compra.", "danger"))
    ∧ (∀ (pf : Portfolio) (ops : List Op), 0 ≤ pf.cash →
       (∀ op ∈ ops, opValid op = true) → 0 ≤ (applyOps pf ops).cash) := by
  refine ⟨?_, ?_⟩
  · intro pf tk q p now h
    simp [buyStock, h.not_le]
  · intro pf ops h hv
    exact applyOps_cash_nonneg ops pf h hv

/-- Witness for C2 at a concrete over-budget buy and a concrete operation
sequence. -/
theorem buy_rejection_and_cash_nonneg_witness :
    buyStock initPortfolio "A" 2000 100 "d"
      = (initPortfolio, "❌ Fondos insuficientes para realizar la compra.", "danger")
    ∧ 0 ≤ (applyOps initPortfolio
        [Op.buy "A" 1 5, Op.sell "A" 1 5, Op.reset]).cash :=
  ⟨buy_rejection_and_cash_nonneg.1 initPortfolio "A" 2000 100 "d"
     (by norm_num [initPortfolio]),
   buy_rejection_and_cash_nonneg.2 initPortfolio
     [Op.buy "A" 1 5, Op.sell "A" 1 5, Op.reset]
     (by norm_num [initPortfolio])
     (by intro op hop
         simp only [List.mem_cons, List.not_mem_nil, or_false] at hop
         rcases hop with rfl | rfl | rfl <;> norm_num [opValid])⟩

/-! ## Claim C5 -/

theorem sellStock_stocks_cases (pf : Portfolio) (tk : String) (q : Int) (p : ℚ)
    (now : String) (pos : Position) (h : dictGet pf.stocks tk = some pos)
    (hle : q ≤ pos.qty) :
    (sellStock pf tk q p now).1.stocks
      = if pos.qty - q = 0 then dictRemove pf.stocks tk
        else dictSet pf.stocks tk ⟨pos.qty - q, pos.avg_price, pos.buy_date⟩ := by
  simp [sellStock, h, hle]

theorem sellStock_fail_of_not_enough (pf : Portfolio) (tk : String) (q : Int)
    (p : ℚ) (now : String)
    (h : ∀ pos, dictGet pf.stocks tk = some pos → pos.qty < q) :
    (sellStock pf tk q p now).1 = pf := by
  cases hg : dictGet pf.stocks tk with
  | none => simp [sellStock, hg]
  | some pos => simp [sellStock, hg, not_le.mpr (h pos hg)]

/-- C5: a sell of a ticker that is not held, or of more shares than held,
fails with the insufficient-shares message and leaves the portfolio
unchanged; a valid sell credits `qty × price` to cash, computes the
realized PnL from the position's average price before decrementing,
appends a closed-trade record, and decrements the position, removing it
exactly when its quantity reaches zero (so positions with positive
quantity stay positive); and the spec's concrete scenario from cash
100000 produces exactly the stated cash, average price, and realized PnL
values. -/
theorem sell_semantics_and_scenario :
    (∀ (pf : Portfolio) (tk : String) (q : Int) (p : ℚ) (now : String),
       dictGet pf.stocks tk = none →
       sellStock pf tk q p now
         = (pf, "❌ No tienes suficientes acciones para vender.", "danger", 0))
    ∧ (∀ (pf : Portfolio) (tk : String) (q : Int) (p : ℚ) (now : String)
         (pos : Position), dictGet pf.stocks tk = some pos → pos.qty < q →
       sellStock pf tk q p now
         = (pf, "❌ No tienes suficientes acciones para vender.", "danger", 0))
    ∧ (∀ (pf : Portfolio) (tk : String) (q : Int) (p : ℚ) (now : String)
         (pos : Position), dictGet pf.stocks tk = some pos → q ≤ pos.qty →
       (sellStock pf tk q p now).1.cash = pf.cash + (q : ℚ) * p
       ∧ (sellStock pf tk q p now).2.2.2 = (p - pos.avg_price) * (q : ℚ)
       ∧ (sellStock pf tk q p now).1.closed_trades
           = pf.closed_trades
             ++ [⟨now, tk, q, round2 pos.avg_price, round2 p,
                  round2 ((p - pos.avg_price) * (q : ℚ))⟩]
       ∧ (pos.qty = q → (sellStock pf tk q p now).1.stocks = dictRemove pf.stocks tk)
       ∧ (q < pos.qty → (sellStock pf tk q p now).1.stocks
           = dictSet pf.stocks tk ⟨pos.qty - q, pos.avg_price, pos.buy_date⟩))
    ∧ (∀ (pf : Portfolio) (tk : String) (q : Int) (p : ℚ) (now : String),
       (∀ x ∈ pf.stocks, 0 < x.2.qty) →
       ∀ x ∈ (sellStock pf tk q p now).1.stocks, 0 < x.2.qty)
    ∧ ((buyStock initPortfolio "AAPL" 10 150 "d").1.cash = 98500
       ∧ dictGet (buyStock initPortfolio "AAPL" 10 150 "d").1.stocks "AAPL"
           = some ⟨10, 150, "d"⟩
       ∧ (buyStock (buyStock initPortfolio "AAPL" 10 150 "d").1 "AAPL" 10 170 "d").1.cash
           = 96800
       ∧ dictGet (buyStock (buyStock initPortfolio "AAPL" 10 150 "d").1 "AAPL" 10 170 "d").1.stocks
           "AAPL" = some ⟨20, 160, "d"⟩
       ∧ (sellStock (buyStock (buyStock initPortfolio "AAPL" 10 150 "d").1 "AAPL" 10 170 "d").1
           "AAPL" 15 180 "d").2.2.2 = 300
       ∧ (sellStock (buyStock (buyStock initPortfolio "AAPL" 10 150 "d").1 "AAPL" 10 170 "d").1
           "AAPL" 15 180 "d").1.cash = 99500
       ∧ dictGet (sellStock (buyStock (buyStock initPortfolio "AAPL" 10 150 "d").1 "AAPL" 10 170 "d").1
           "AAPL" 15 180 "d").1.stocks "AAPL" = some ⟨5, 160, "d"⟩) := by
  refine ⟨?_, ?_, ?_, ?_, ?_⟩
  · intro pf tk q p now h
    simp [sellStock, h]
  · intro pf tk q p now pos h hlt
    simp [sellStock, h, not_le.mpr hlt]
  · intro pf tk q p now pos h hle
    refine ⟨?_, ?_, ?_, ?_, ?_⟩
    · simp [sellStock, h, hle]
    · simp [sellStock, h, hle]
    · simp [sellStock, h, hle]
    · intro heq
      simp [sellStock, h, hle, heq]
    · intro hlt
      have hne : pos.qty - q ≠ 0 := by omega
      simp [sellStock, h, hle, hne]
  · intro pf tk q p now hpos
    by_cases hg : ∃ pos, dictGet pf.stocks tk = some pos ∧ q ≤ pos.qty
    · obtain ⟨pos, hg, hle⟩ := hg
      have hst := sellStock_stocks_cases pf tk q p now pos hg hle
      intro x hx
      rw [hst] at hx
      by_cases hz : pos.qty - q = 0
      · rw [if_pos hz] at hx
        exact hpos x (mem_dictRemove _ _ _ hx)
      · rw [if_neg hz] at hx
        rcases mem_dictSet _ _ _ _ hx with rfl | hx'
        · show 0 < pos.qty - q
          omega
        · exact hpos x hx'
    · have hfail : (sellStock pf tk q p now).1 = pf := by
        refine sellStock_fail_of_not_enough pf tk q p now ?_
        intro pos hpos'
        by_contra hh
        exact hg ⟨pos, hpos', not_lt.mp hh⟩
      rw [hfail]
      exact hpos
  · norm_num [buyStock, sellStock, initPortfolio, dictGet, dictSet]

/-- Witness for C5: a sell of a ticker that is not held fails and leaves
the default portfolio unchanged. -/
theorem sell_semantics_and_scenario_witness :
    sellStock initPortfolio "A" 1 10 "d"
      = (initPortfolio, "❌ No tienes suficientes acciones para vender.", "danger", 0) :=
  sell_semantics_and_scenario.1 initPortfolio "A" 1 10 "d" rfl

/-! ## Claim C7 -/

/-- C7: from sufficient cash and no existing position, buying and then
selling the same quantity at the same price restores cash exactly,
produces a realized PnL of zero, and restores the stocks dict. -/
theorem buy_sell_round_trip (pf : Portfolio) (tk : String) (q : Int) (p : ℚ)
    (now now2 : String) (_hq : 0 < q) (_hp : 0 < p)
    (hnone : dictGet pf.stocks tk = none) (hcash : (q : ℚ) * p ≤ pf.cash) :
    (sellStock (buyStock pf tk q p now).1 tk q p now2).1.cash = pf.cash
    ∧ (sellStock (buyStock pf tk q p now).1 tk q p now2).2.2.2 = 0
    ∧ (sellStock (buyStock pf tk q p now).1 tk q p now2).1.stocks = pf.stocks := by
  have hbuy : (buyStock pf tk q p now).1
      = { cash := pf.cash - (q : ℚ) * p,
          stocks := dictSet pf.stocks tk ⟨q, p, now⟩,
          initial_cash := pf.initial_cash,
          closed_trades := pf.closed_trades } := by
    simp [buyStock, hcash, hnone]
  rw [hbuy]
  have hget : dictGet (dictSet pf.stocks tk ⟨q, p, now⟩) tk = some ⟨q, p, now⟩ :=
    dictGet_dictSet_self _ _ _
  refine ⟨?_, ?_, ?_⟩
  · simp [sellStock, hget]
  · simp [sellStock, hget]
  · simp [sellStock, hget, dictRemove_dictSet _ _ _ hnone]

/-- Witness for C7 at a concrete round trip. -/
theorem buy_sell_round_trip_witness :
    (sellStock (buyStock initPortfolio "A" 3 50 "d").1 "A" 3 50 "e").1.cash
      = initPortfolio.cash
    ∧ (sellStock (buyStock initPortfolio "A" 3 50 "d").1 "A" 3 50 "e").2.2.2 = 0
    ∧ (sellStock (buyStock initPortfolio "A" 3 50 "d").1 "A" 3 50 "e").1.stocks
      = initPortfolio.stocks :=
  buy_sell_round_trip initPortfolio "A" 3 50 "d" "e" (by norm_num) (by norm_num)
    rfl (by norm_num [initPortfolio])

/-! ## Claim C1 -/

theorem buy_ne_nodata : BUY_SIGNAL ≠ NO_DATA_SIGNAL := by decide

theorem sell_ne_nodata : SELL_SIGNAL ≠ NO_DATA_SIGNAL := by decide

theorem buy_ne_sell : BUY_SIGNAL ≠ SELL_SIGNAL := by decide

theorem sell_ne_buy : SELL_SIGNAL ≠ BUY_SIGNAL := by decide

theorem danger_ne_success : ("danger" : String) ≠ "success" := by decide

theorem simRun_buy_gated (tk : String) (qty : Int) :
    ∀ (bars : List SimBar) (st : SimState), (∀ b ∈ bars, b.1 = BUY_SIGNAL) →
    st.last_rec = some BUY_SIGNAL → simRun tk qty st bars = (st, 0)
  | [], _, _, _ => rfl
  | b :: rest, st, hb, hl => by
    have hb1 : b.1 = BUY_SIGNAL := hb b (List.mem_cons_self _ _)
    have hstep : simStep tk qty st b = (st, false) := by
      simp [simStep, hb1, buy_ne_nodata, hl]
    simp [simRun, hstep,
      simRun_buy_gated tk qty rest st (fun x hx => hb x (List.mem_cons_of_mem _ hx)) hl]

/-- C1: along the simulated trading loop (backtest.py) a run of N
consecutive Buy recommendations with cash sufficient for the first trade
executes exactly one buy; both the simulator and the live automation
callback (callbacks.py) refuse a Buy/Sell whose signal equals the last
recorded automated action for the ticker, and both record an Observe/Hold
signal without trading. -/
theorem anti_repeat_gate_spec :
    (∀ (tk : String) (qty : Int) (st : SimState) (b : SimBar)
        (rest : List SimBar),
       b.1 = BUY_SIGNAL → (∀ x ∈ rest, x.1 = BUY_SIGNAL) →
       st.last_rec ≠ some BUY_SIGNAL → (qty : ℚ) * b.2.1 ≤ st.portfolio.cash →
       (simRun tk qty st (b :: rest)).2 = 1
       ∧ (simRun tk qty st (b :: rest)).1.last_rec = some BUY_SIGNAL)
    ∧ (∀ (tk : String) (qty : Int) (st : SimState) (b : SimBar),
        b.1 = BUY_SIGNAL → st.last_rec = some BUY_SIGNAL →
        simStep tk qty st b = (st, false))
    ∧ (∀ (tk : String) (qty : Int) (st : SimState) (b : SimBar),
        b.1 = SELL_SIGNAL → st.last_rec = some SELL_SIGNAL →
        simStep tk qty st b = (st, false))
    ∧ (∀ (tk : String) (qty : Int) (st : SimState) (b : SimBar),
        b.1 ≠ BUY_SIGNAL → b.1 ≠ SELL_SIGNAL → b.1 ≠ NO_DATA_SIGNAL →
        simStep tk qty st b = ({ st with last_rec := some b.1 }, false))
    ∧ (∀ (st : AutoState) (tk : String) (price : ℚ) (qty : Int) (now : String),
        dictGet st.last_auto_trade_rec tk = some BUY_SIGNAL →
        autoStep st tk BUY_SIGNAL price qty now = (st, false))
    ∧ (∀ (st : AutoState) (tk : String) (price : ℚ) (qty : Int) (now : String),
        dictGet st.last_auto_trade_rec tk = some SELL_SIGNAL →
        autoStep st tk SELL_SIGNAL price qty now = (st, false))
    ∧ (∀ (st : AutoState) (tk sig : String) (price : ℚ) (qty : Int) (now : String),
        sig ≠ BUY_SIGNAL → sig ≠ SELL_SIGNAL →
        autoStep st tk sig price qty now
          = ({ st with
               last_auto_trade_rec := dictSet st.last_auto_trade_rec tk sig },
             false)) := by
  refine ⟨?_, ?_, ?_, ?_, ?_, ?_, ?_⟩
  · intro tk qty st b rest hb hrest hgate hcash
    have hsucc : (buyStock st.portfolio tk qty b.2.1 b.2.2).2.2 = "success" := by
      simp [buyStock, hcash]
    have hstep : simStep tk qty st b
        = ({ portfolio := (buyStock st.portfolio tk qty b.2.1 b.2.2).1,
             last_rec := some BUY_SIGNAL }, true) := by
      simp [simStep, hb, buy_ne_nodata, hgate, hsucc]
    have hrun := simRun_buy_gated tk qty rest
      { portfolio := (buyStock st.portfolio tk qty b.2.1 b.2.2).1,
        last_rec := some BUY_SIGNAL } hrest rfl
    constructor
    · simp [simRun, hstep, hrun]
    · simp [simRun, hstep, hrun]
  · intro tk qty st b hb hl
    simp [simStep, hb, buy_ne_nodata, hl]
  · intro tk qty st b hb hl
    simp [simStep, hb, sell_ne_nodata, buy_ne_sell, hl]
    intro h
    exact absurd h.symm buy_ne_sell
  · intro tk qty st b h1 h2 h3
    simp [simStep, h1, h2, h3]
  · intro st tk price qty now hget
    simp [autoStep, hget]
  · intro st tk price qty now hget
    simp [autoStep, hget, sell_ne_buy]
  · intro st tk sig price qty now h1 h2
    simp [autoStep, h1, h2]

/-- Witness for C1: three consecutive Buy bars from an open gate execute
exactly one buy. -/
theorem anti_repeat_gate_spec_witness :
    (simRun "A" 2 ⟨initPortfolio, none⟩
       ((BUY_SIGNAL, 10, "t1") :: [(BUY_SIGNAL, 11, "t2"), (BUY_SIGNAL, 12, "t3")])).2 = 1
    ∧ (simRun "A" 2 ⟨initPortfolio, none⟩
       ((BUY_SIGNAL, 10, "t1") :: [(BUY_SIGNAL, 11, "t2"), (BUY_SIGNAL, 12, "t3")])).1.last_rec
       = some BUY_SIGNAL :=
  anti_repeat_gate_spec.1 "A" 2 ⟨initPortfolio, none⟩ (BUY_SIGNAL, 10, "t1")
    [(BUY_SIGNAL, 11, "t2"), (BUY_SIGNAL, 12, "t3")]
    rfl (by simp) (by simp) (by norm_num [initPortfolio])

/-! ## Claim C10 -/

theorem autoStep_buy_fail (st : AutoState) (tk : String) (price : ℚ)
    (qty : Int) (now : String)
    (hgate : dictGet st.last_auto_trade_rec tk ≠ some BUY_SIGNAL)
    (hq : 0 < qty) (hcash : st.portfolio.cash < (qty : ℚ) * price) :
    autoStep st tk BUY_SIGNAL price qty now = (st, false) := by
  have hfail : buyStock st.portfolio tk qty price now
      = (st.portfolio, "❌ Fondos insuficientes para realizar la compra.",
         "danger") := by
    simp [buyStock, hcash.not_le]
  simp [autoStep, hgate, hq.not_le, hfail, danger_ne_success]

theorem autoRun_buy_fail_all (tk : String) (qty : Int) (now : String) :
    ∀ (ps : List ℚ) (st : AutoState),
    dictGet st.last_auto_trade_rec tk ≠ some BUY_SIGNAL → 0 < qty →
    (∀ pr ∈ ps, st.portfolio.cash < (qty : ℚ) * pr) →
    autoRun tk qty now st (ps.map (fun pr => (BUY_SIGNAL, pr))) = (st, 0)
  | [], _, _, _, _ => rfl
  | pr :: rest, st, hgate, hq, hc => by
    have hstep := autoStep_buy_fail st tk pr qty now hgate hq
      (hc pr (List.mem_cons_self _ _))
    simp [autoRun, hstep,
      autoRun_buy_fail_all tk qty now rest st hgate hq
        (fun x hx => hc x (List.mem_cons_of_mem _ hx))]

/-- C10: a failed automated trade leaves both the portfolio and the
anti-repeat record untouched (for a Buy blocked by insufficient funds and
for a Sell blocked by insufficient shares), so with the Buy signal
persisting the automation retries every evaluation and executes exactly one
buy at the first evaluation whose price fits the cash. -/
theorem failed_trade_keeps_gate_and_retries :
    (∀ (st : AutoState) (tk : String) (price : ℚ) (qty : Int) (now : String),
       dictGet st.last_auto_trade_rec tk ≠ some BUY_SIGNAL → 0 < qty →
       st.portfolio.cash < (qty : ℚ) * price →
       autoStep st tk BUY_SIGNAL price qty now = (st, false))
    ∧ (∀ (st : AutoState) (tk : String) (price : ℚ) (qty : Int) (now : String),
       dictGet st.last_auto_trade_rec tk ≠ some SELL_SIGNAL → 0 < qty →
       (∀ pos, dictGet st.portfolio.stocks tk = some pos → pos.qty < qty) →
       autoStep st tk SELL_SIGNAL price qty now = (st, false))
    ∧ (∀ (st : AutoState) (tk : String) (qty : Int) (now : String)
         (ps : List ℚ) (pr : ℚ),
       dictGet st.last_auto_trade_rec tk ≠ some BUY_SIGNAL → 0 < qty →
       (∀ x ∈ ps, st.portfolio.cash < (qty : ℚ) * x) →
       (qty : ℚ) * pr ≤ st.portfolio.cash →
       (autoRun tk qty now st
          (ps.map (fun x => (BUY_SIGNAL, x)) ++ [(BUY_SIGNAL, pr)])).2 = 1
       ∧ (autoRun tk qty now st
          (ps.map (fun x => (BUY_SIGNAL, x)) ++ [(BUY_SIGNAL, pr)])).1.portfolio.cash
           = st.portfolio.cash - (qty : ℚ) * pr
       ∧ dictGet (autoRun tk qty now st
          (ps.map (fun x => (BUY_SIGNAL, x)) ++ [(BUY_SIGNAL, pr)])).1.last_auto_trade_rec
           tk = some BUY_SIGNAL) := by
  refine ⟨?_, ?_, ?_⟩
  · intro st tk price qty now hgate hq hcash
    exact autoStep_buy_fail st tk price qty now hgate hq hcash
  · intro st tk price qty now hgate hq hsh
    have hfail : sellStock st.portfolio tk qty price now
        = (st.portfolio, "❌ No tienes suficientes acciones para vender.",
           "danger", 0) := by
      cases hg : dictGet st.portfolio.stocks tk with
      | none => simp [sellStock, hg]
      | some pos => simp [sellStock, hg, not_le.mpr (hsh pos hg)]
    simp [autoStep, sell_ne_buy, hgate, hq.not_le, hfail, danger_ne_success]
  · intro st tk qty now ps pr hgate hq hfails hlast
    have hrun := autoRun_buy_fail_all tk qty now ps st hgate hq hfails
    have happ : autoRun tk qty now st
        (ps.map (fun x => (BUY_SIGNAL, x)) ++ [(BUY_SIGNAL, pr)])
        = autoRun tk qty now st ((ps ++ [pr]).map (fun x => (BUY_SIGNAL, x))) := by
      simp
    have hsucc : (buyStock st.portfolio tk qty pr now).2.2 = "success" := by
      simp [buyStock, hlast]
    have hstep : autoStep st tk BUY_SIGNAL pr qty now
        = ({ portfolio := (buyStock st.portfolio tk qty pr now).1,
             last_auto_trade_rec := dictSet st.last_auto_trade_rec tk BUY_SIGNAL },
           true) := by
      simp [autoStep, hgate, hq.not_le, hsucc]
    have hcash' : (buyStock st.portfolio tk qty pr now).1.cash
        = st.portfolio.cash - (qty : ℚ) * pr := by
      simp [buyStock, hlast]
    clear happ
    induction ps with
    | nil =>
      refine ⟨?_, ?_, ?_⟩
      · simp [autoRun, hstep]
      · simp [autoRun, hstep, hcash']
      · simp [autoRun, hstep, dictGet_dictSet_self]
    | cons x xs ih =>
      have hx := hfails x (List.mem_cons_self _ _)
      have hxs : ∀ y ∈ xs, st.portfolio.cash < (qty : ℚ) * y :=
        fun y hy => hfails y (List.mem_cons_of_mem _ hy)
      have hstepx := autoStep_buy_fail st tk x qty now hgate hq hx
      have hrunxs := autoRun_buy_fail_all tk qty now xs st hgate hq hxs
      obtain ⟨ih1, ih2, ih3⟩ := ih hxs hrunxs
      refine ⟨?_, ?_, ?_⟩
      · simpa [autoRun, hstepx] using ih1
      · simpa [autoRun, hstepx] using ih2
      · simpa [autoRun, hstepx] using ih3

/-- Witness for C10: two failing Buy evaluations followed by an affordable
one execute exactly one buy and deduct its cost. -/
theorem failed_trade_keeps_gate_and_retries_witness :
    (autoRun "A" 1 "n"
       ⟨{ cash := 15, stocks := [], initial_cash := 15, closed_trades := [] }, []⟩
       (([20, 30] : List ℚ).map (fun x => (BUY_SIGNAL, x)) ++ [(BUY_SIGNAL, 10)])).2 = 1
    ∧ (autoRun "A" 1 "n"
       ⟨{ cash := 15, stocks := [], initial_cash := 15, closed_trades := [] }, []⟩
       (([20, 30] : List ℚ).map (fun x => (BUY_SIGNAL, x)) ++ [(BUY_SIGNAL, 10)])).1.portfolio.cash
       = ({ cash := 15, stocks := [], initial_cash := 15, closed_trades := [] } : Portfolio).cash
         - ((1 : Int) : ℚ) * 10
    ∧ dictGet (autoRun "A" 1 "n"
       ⟨{ cash := 15, stocks := [], initial_cash := 15, closed_trades := [] }, []⟩
       (([20, 30] : List ℚ).map (fun x => (BUY_SIGNAL, x)) ++ [(BUY_SIGNAL, 10)])).1.last_auto_trade_rec
       "A" = some BUY_SIGNAL :=
  failed_trade_keeps_gate_and_retries.2.2
    ⟨{ cash := 15, stocks := [], initial_cash := 15, closed_trades := [] }, []⟩
    "A" 1 "n" [20, 30] 10 (by simp [dictGet]) (by norm_num)
    (by intro x hx
        simp only [List.mem_cons, List.not_mem_nil, or_false] at hx
        rcases hx with rfl | rfl <;> norm_num)
    (by norm_num)

/-! ## Claim C6 -/

theorem sumCost_nonneg (l : List (Int × ℚ)) (h : ∀ x ∈ l, 0 < x.1 ∧ 0 < x.2) :
    0 ≤ sumCost l := by
  induction l with
  | nil => simp [sumCost]
  | cons x xs ih =>
    have hx := h x (List.mem_cons_self _ _)
    have h1 : (0 : ℚ) < (x.1 : ℚ) := by exact_mod_cast hx.1
    have h2 := ih (fun y hy => h y (List.mem_cons_of_mem _ hy))
    have h3 := mul_pos h1 hx.2
    simp only [sumCost, List.map_cons, List.sum_cons] at *
    linarith

theorem sumQty_nonneg (l : List (Int × ℚ)) (h : ∀ x ∈ l, 0 < x.1 ∧ 0 < x.2) :
    0 ≤ sumQty l := by
  induction l with
  | nil => simp [sumQty]
  | cons x xs ih =>
    have hx := h x (List.mem_cons_self _ _)
    have h2 := ih (fun y hy => h y (List.mem_cons_of_mem _ hy))
    simp only [sumQty, List.map_cons, List.sum_cons] at *
    omega

theorem runBuys_acc (tk : String) :
    ∀ (l : List (Int × ℚ)) (pf : Portfolio) (pos : Position),
    dictGet pf.stocks tk = some pos → 0 < pos.qty →
    (∀ x ∈ l, 0 < x.1 ∧ 0 < x.2) → sumCost l ≤ pf.cash →
    dictGet (runBuys tk pf l).stocks tk
      = some ⟨pos.qty + sumQty l,
          ((pos.qty : ℚ) * pos.avg_price + sumCost l) / ((pos.qty + sumQty l : Int) : ℚ),
          pos.buy_date⟩
    ∧ (runBuys tk pf l).cash = pf.cash - sumCost l
  | [], pf, pos, hget, hqpos, _, _ => by
    have hQ : ((pos.qty : Int) : ℚ) ≠ 0 := by
      exact_mod_cast ne_of_gt hqpos
    constructor
    · show dictGet pf.stocks tk = _
      rw [hget]
      obtain ⟨Q, A, d⟩ := pos
      simp only [sumQty, sumCost, List.map_nil, List.sum_nil, add_zero,
        Option.some.injEq] at *
      rw [mul_div_cancel_left₀ A hQ]
    · show pf.cash = _
      simp [sumCost]
  | (q, p) :: rest, pf, pos, hget, hqpos, hl, hcash => by
    have hx := hl (q, p) (List.mem_cons_self _ _)
    have hq1 : (0 : ℚ) < (q : ℚ) := by exact_mod_cast hx.1
    have hrest : ∀ x ∈ rest, 0 < x.1 ∧ 0 < x.2 :=
      fun x hx' => hl x (List.mem_cons_of_mem _ hx')
    have hrest_nonneg : 0 ≤ sumCost rest := sumCost_nonneg rest hrest
    have hrestq_nonneg : 0 ≤ sumQty rest := sumQty_nonneg rest hrest
    have hsumc : sumCost ((q, p) :: rest) = (q : ℚ) * p + sumCost rest := by
      simp [sumCost]
    have hsumq : sumQty ((q, p) :: rest) = q + sumQty rest := by
      simp [sumQty]
    have hqp_pos : (0 : ℚ) < (q : ℚ) * p := mul_pos hq1 hx.2
    have hc1 : (q : ℚ) * p ≤ pf.cash := by
      rw [hsumc] at hcash
      linarith
    have hbuy : (buyStock pf tk q p "now").1
        = { cash := pf.cash - (q : ℚ) * p,
            stocks := dictSet pf.stocks tk
              ⟨pos.qty + q,
               ((pos.qty : ℚ) * pos.avg_price + (q : ℚ) * p) / ((pos.qty + q : Int) : ℚ),
               pos.buy_date⟩,
            initial_cash := pf.initial_cash,
            closed_trades := pf.closed_trades } := by
      simp [buyStock, hget, hc1]
    have hstep : runBuys tk pf ((q, p) :: rest)
        = runBuys tk (buyStock pf tk q p "now").1 rest := rfl
    have hq0 := hx.1
    have hnq : (0 : Int) <
        (Position.qty ⟨pos.qty + q,
          ((pos.qty : ℚ) * pos.avg_price + (q : ℚ) * p) / ((pos.qty + q : Int) : ℚ),
          pos.buy_date⟩) := by
      show (0 : Int) < pos.qty + q
      omega
    have hIH := runBuys_acc tk rest (buyStock pf tk q p "now").1
      ⟨pos.qty + q,
       ((pos.qty : ℚ) * pos.avg_price + (q : ℚ) * p) / ((pos.qty + q : Int) : ℚ),
       pos.buy_date⟩
      (by rw [hbuy]; exact dictGet_dictSet_self _ _ _) hnq hrest
      (by rw [hbuy]
          show sumCost rest ≤ pf.cash - (q : ℚ) * p
          rw [hsumc] at hcash
          linarith)
    obtain ⟨h1, h2⟩ := hIH
    have hQq : ((pos.qty + q : Int) : ℚ) ≠ 0 := by
      have h0 : (0 : Int) < pos.qty + q := by omega
      exact_mod_cast ne_of_gt h0
    have hden : ((pos.qty + q + sumQty rest : Int) : ℚ) ≠ 0 := by
      have h0 : (0 : Int) < pos.qty + q + sumQty rest := by omega
      exact_mod_cast ne_of_gt h0
    rw [hstep]
    constructor
    · rw [h1]
      simp only [Option.some.injEq, Position.mk.injEq]
      refine ⟨by rw [hsumq]; ring, ?_, trivial⟩
      rw [hsumc, hsumq]
      push_cast
      push_cast at hQq hden
      field_simp
      ring
    · rw [h2, hbuy]
      show pf.cash - (q : ℚ) * p - sumCost rest = pf.cash - sumCost ((q, p) :: rest)
      rw [hsumc]
      ring

theorem runBuys_from_none (tk : String) (pf : Portfolio)
    (l : List (Int × ℚ)) (hl : ∀ x ∈ l, 0 < x.1 ∧ 0 < x.2)
    (hcash : sumCost l ≤ pf.cash) (hne : l ≠ [])
    (hnone : dictGet pf.stocks tk = none) :
    dictGet (runBuys tk pf l).stocks tk
      = some ⟨sumQty l, sumCost l / ((sumQty l : Int) : ℚ), "now"⟩ := by
  cases l with
  | nil => exact absurd rfl hne
  | cons x rest =>
    obtain ⟨q, p⟩ := x
    have hx := hl (q, p) (List.mem_cons_self _ _)
    have hq1 : (0 : ℚ) < (q : ℚ) := by exact_mod_cast hx.1
    have hrest : ∀ y ∈ rest, 0 < y.1 ∧ 0 < y.2 :=
      fun y hy => hl y (List.mem_cons_of_mem _ hy)
    have hrest_nonneg : 0 ≤ sumCost rest := sumCost_nonneg rest hrest
    have hsumc : sumCost ((q, p) :: rest) = (q : ℚ) * p + sumCost rest := by
      simp [sumCost]
    have hsumq : sumQty ((q, p) :: rest) = q + sumQty rest := by
      simp [sumQty]
    have hqp_pos : (0 : ℚ) < (q : ℚ) * p := mul_pos hq1 hx.2
    have hc1 : (q : ℚ) * p ≤ pf.cash := by
      rw [hsumc] at hcash
      linarith
    have hbuy : (buyStock pf tk q p "now").1
        = { cash := pf.cash - (q : ℚ) * p,
            stocks := dictSet pf.stocks tk ⟨q, p, "now"⟩,
            initial_cash := pf.initial_cash,
            closed_trades := pf.closed_trades } := by
      simp [buyStock, hnone, hc1]
    have hstep : runBuys tk pf ((q, p) :: rest)
        = runBuys tk (buyStock pf tk q p "now").1 rest := rfl
    have hnq : (0 : Int) < (Position.qty ⟨q, p, "now"⟩) := hx.1
    have hIH := runBuys_acc tk rest (buyStock pf tk q p "now").1 ⟨q, p, "now"⟩
      (by rw [hbuy]; exact dictGet_dictSet_self _ _ _) hnq hrest
      (by rw [hbuy]
          show sumCost rest ≤ pf.cash - (q : ℚ) * p
          rw [hsumc] at hcash
          linarith)
    rw [hstep, hIH.1, hsumc, hsumq]

/-- C6: for a sequence of successful buys of one ticker starting with no
position, the resulting average price is the quantity-weighted mean of the
buy prices, and any permutation of the sequence yields the same average
price. -/
theorem avg_price_weighted_mean_perm (tk : String) (pf : Portfolio)
    (l l' : List (Int × ℚ)) (hperm : l.Perm l')
    (hl : ∀ x ∈ l, 0 < x.1 ∧ 0 < x.2)
    (hcash : sumCost l ≤ pf.cash) (hne : l ≠ [])
    (hnone : dictGet pf.stocks tk = none) :
    (dictGet (runBuys tk pf l).stocks tk).map Position.avg_price
      = some (sumCost l / ((sumQty l : Int) : ℚ))
    ∧ (dictGet (runBuys tk pf l').stocks tk).map Position.avg_price
      = (dictGet (runBuys tk pf l).stocks tk).map Position.avg_price := by
  have hsumc_eq : sumCost l = sumCost l' := by
    unfold sumCost
    exact (hperm.map _).sum_eq
  have hsumq_eq : sumQty l = sumQty l' := by
    unfold sumQty
    exact (hperm.map _).sum_eq
  have hl' : ∀ x ∈ l', 0 < x.1 ∧ 0 < x.2 :=
    fun x hx => hl x (hperm.mem_iff.mpr hx)
  have hne' : l' ≠ [] := by
    intro h
    subst h
    exact hne hperm.eq_nil
  have h1 := runBuys_from_none tk pf l hl hcash hne hnone
  have h2 := runBuys_from_none tk pf l' hl' (hsumc_eq ▸ hcash) hne' hnone
  refine ⟨by rw [h1]; rfl, ?_⟩
  rw [h1, h2]
  rw [hsumc_eq, hsumq_eq]

/-- Witness for C6: two buys in either order yield the same weighted
average price 7/2. -/
theorem avg_price_weighted_mean_perm_witness :
    (dictGet (runBuys "A" initPortfolio [(1, 2), (3, 4)]).stocks "A").map Position.avg_price
      = some (sumCost [((1 : Int), (2 : ℚ)), (3, 4)]
          / ((sumQty [((1 : Int), (2 : ℚ)), (3, 4)] : Int) : ℚ))
    ∧ (dictGet (runBuys "A" initPortfolio [(3, 4), (1, 2)]).stocks "A").map Position.avg_price
      = (dictGet (runBuys "A" initPortfolio [(1, 2), (3, 4)]).stocks "A").map Position.avg_price :=
  avg_price_weighted_mean_perm "A" initPortfolio [(1, 2), (3, 4)] [(3, 4), (1, 2)]
    (List.Perm.swap (3, 4) (1, 2) [])
    (by intro x hx
        simp only [List.mem_cons, List.not_mem_nil, or_false] at hx
        rcases hx with rfl | rfl <;> norm_num)
    (by norm_num [sumCost, initPortfolio])
    (List.cons_ne_nil _ _)
    rfl

/-! ## Claim C9 amended -/

theorem hofBest_score_le (h0 c : Cand) : h0.score ≤ (hofBest (some h0) c).score := by
  simp only [hofBest]
  split
  · rename_i hf
    simp only [fitLt, decide_eq_true_eq] at hf
    rcases hf with h | ⟨he, _⟩
    · exact le_of_lt h
    · exact le_of_eq he
  · exact le_rfl

theorem optGenStep_best_mono (st : OptState) (b : Cand) (gen : Nat)
    (cur : BestEntry) (h : st.best = some cur) :
    ∃ nb, (optGenStep st b gen).best = some nb ∧ cur.score ≤ nb.score := by
  by_cases hlt : cur.score < b.score
  · refine ⟨⟨b.score, b.config, b.trades, b.profit_pct⟩, ?_, le_of_lt hlt⟩
    simp [optGenStep, h, hlt]
  · refine ⟨cur, ?_, le_rfl⟩
    simp [optGenStep, h, hlt]

theorem optLoop_best_mono :
    ∀ (cands : List Cand) (st : OptState) (hof : Option Cand) (gen : Nat)
      (cur : BestEntry), st.best = some cur →
    ∃ nb, (optLoop st hof gen cands).best = some nb ∧ cur.score ≤ nb.score
  | [], _, _, _, cur, h => ⟨cur, h, le_rfl⟩
  | c :: rest, st, hof, gen, cur, h => by
    obtain ⟨mid, hmid, hle1⟩ := optGenStep_best_mono st (hofBest hof c) (gen + 1) cur h
    obtain ⟨nb, hnb, hle2⟩ := optLoop_best_mono rest
      (optGenStep st (hofBest hof c) (gen + 1)) (some (hofBest hof c)) (gen + 1)
      mid hmid
    exact ⟨nb, hnb, le_trans hle1 hle2⟩

theorem runAll_best_mono :
    ∀ (runs : List (List Cand)) (st : OptState) (cur : BestEntry),
    st.best = some cur →
    ∃ nb, (runAll st runs).best = some nb ∧ cur.score ≤ nb.score
  | [], _, cur, h => ⟨cur, h, le_rfl⟩
  | r :: rest, st, cur, h => by
    obtain ⟨mid, hmid, hle1⟩ := optLoop_best_mono r st none 0 cur h
    obtain ⟨nb, hnb, hle2⟩ := runAll_best_mono rest (runOptimizerModel st r) mid hmid
    exact ⟨nb, hnb, le_trans hle1 hle2⟩

theorem optLoop_history :
    ∀ (cands : List Cand) (st : OptState) (hof : Option Cand) (gen : Nat),
    ∃ tail, (optLoop st hof gen cands).history = st.history ++ tail
      ∧ List.Chain' (· ≤ ·) (tail.map HistEntry.score)
      ∧ ∀ h0, hof = some h0 → ∀ e ∈ tail, h0.score ≤ e.score
  | [], st, _, _ => ⟨[], by simp [optLoop], by simp, by simp⟩
  | c :: rest, st, hof, gen => by
    obtain ⟨tail, h1, h2, h3⟩ := optLoop_history rest
      (optGenStep st (hofBest hof c) (gen + 1)) (some (hofBest hof c)) (gen + 1)
    have h3' := h3 (hofBest hof c) rfl
    refine ⟨⟨gen + 1, (hofBest hof c).score, (hofBest hof c).config,
             (hofBest hof c).trades, (hofBest hof c).profit_pct⟩ :: tail, ?_, ?_, ?_⟩
    · show (optLoop (optGenStep st (hofBest hof c) (gen + 1))
        (some (hofBest hof c)) (gen + 1) rest).history = _
      rw [h1]
      simp [optGenStep]
    · rw [List.map_cons, List.chain'_cons']
      constructor
      · intro y hy
        rcases tail with _ | ⟨t0, ts⟩
        · simp at hy
        · simp only [List.map_cons, List.head?_cons, Option.mem_def,
            Option.some.injEq] at hy
          subst hy
          exact h3' t0 (List.mem_cons_self _ _)
      · exact h2
    · intro h0 hh0 e he
      subst hh0
      rcases List.mem_cons.mp he with rfl | he'
      · exact hofBest_score_le h0 c
      · exact le_trans (hofBest_score_le h0 c)
          (h3 (hofBest (some h0) c) rfl e he')

/-- C9 amended: the persisted best is overwritten only on strict
improvement of its score, so the best score is monotone across any number
of optimizer runs separated by restarts; the recorded history scores are
monotonically non-decreasing within one run (the hall of fame is a running
maximum there), but the claim's cross-restart monotonicity of history
fails because each run starts a fresh hall of fame. -/
theorem best_monotone_amended :
    (∀ (st : OptState) (b : Cand) (gen : Nat) (cur : BestEntry),
       st.best = some cur → b.score ≤ cur.score →
       (optGenStep st b gen).best = st.best)
    ∧ (∀ (st : OptState) (runs : List (List Cand)) (cur : BestEntry),
       st.best = some cur →
       ∃ nb, (runAll st runs).best = some nb ∧ cur.score ≤ nb.score)
    ∧ (∀ (st : OptState) (cands : List Cand),
       ∃ tail, (runOptimizerModel st cands).history = st.history ++ tail
         ∧ List.Chain' (· ≤ ·) (tail.map HistEntry.score)) := by
  refine ⟨?_, ?_, ?_⟩
  · intro st b gen cur h hle
    simp [optGenStep, h, not_lt.mpr hle]
  · intro st runs cur h
    exact runAll_best_mono runs st cur h
  · intro st cands
    obtain ⟨tail, h1, h2, _⟩ := optLoop_history cands st none 0
    exact ⟨tail, h1, h2⟩

/-- Witness for the amended C9 theorem: a later run whose best score is 5
does not overwrite the persisted best of score 10, and the best stays at
least 10. -/
theorem best_monotone_amended_witness :
    (optGenStep { best := some ⟨10, [], 0, 0⟩, history := [] } candB 3).best
      = ({ best := some ⟨10, [], 0, 0⟩, history := [] } : OptState).best
    ∧ ∃ nb, (runAll { best := some ⟨10, [], 0, 0⟩, history := [] } [[candB]]).best
        = some nb ∧ (⟨10, [], 0, 0⟩ : BestEntry).score ≤ nb.score :=
  ⟨best_monotone_amended.1 { best := some ⟨10, [], 0, 0⟩, history := [] } candB 3
     ⟨10, [], 0, 0⟩ rfl (by norm_num [candB]),
   best_monotone_amended.2.1 { best := some ⟨10, [], 0, 0⟩, history := [] }
     [[candB]] ⟨10, [], 0, 0⟩ rfl⟩

end Finance
